import Mathlib

/-!
Verification of the lightshow audio-reactive DMX controller.

Shallow embedding of the core pipeline of the repository:
* `src/dmx_controller.py` — DMX universe, fixture channel maps, frame assembly;
* `src/audio_processor.py` — ring-buffer push, volume analysis, tempo estimation;
* `src/light_effects.py`  — color transitions, mode switching, beat response;
* `src/main.py`           — shutdown blackout sequence.

Machine floats are modelled as exact rationals (`ℚ`) where the code only does
field arithmetic and comparisons, and as reals (`ℝ`) where a square root is
involved. Channel values and colors are integers (`ℤ`), as in the source.
Python exceptions (`KeyError`, `IndexError`) are modelled as an explicit
Boolean "raised" flag threaded through the state updates.
-/

namespace Lightshow

/-! ### DMX controller model (src/dmx_controller.py) -/

/-- One entry of a fixture's raw channel dict (`config['channels']`):
the key may be absent from the dict, present with value `None`, or present
with an integer channel number. -/
inductive ChanEntry where
  | missing : ChanEntry
  | null : ChanEntry
  | num : ℤ → ChanEntry
deriving DecidableEq

/-- The five channel-map slots a Par light configuration may carry. -/
structure Channels where
  red : ChanEntry
  green : ChanEntry
  blue : ChanEntry
  intensity : ChanEntry
  strobe : ChanEntry
deriving DecidableEq

/-- First loop of `ParLight._validate_channels` (dmx_controller.py:271-274):
a missing required key (red/green/blue) is inserted as `None`. -/
def fillRequired : ChanEntry → ChanEntry
  | ChanEntry.missing => ChanEntry.null
  | e => e

/-- Second loop of `ParLight._validate_channels` (dmx_controller.py:277-281):
a present channel number outside `[1,512]` is reset to `None`. -/
def rangeCheck : ChanEntry → ChanEntry
  | ChanEntry.num c => if 1 ≤ c ∧ c ≤ 512 then ChanEntry.num c else ChanEntry.null
  | e => e

/-- Model of `ParLight._validate_channels`: red/green/blue get the missing-key fill and
the range check; intensity/strobe only get the range check (a missing
intensity or strobe key stays missing). -/
def validateChannels (ch : Channels) : Channels where
  red := rangeCheck (fillRequired ch.red)
  green := rangeCheck (fillRequired ch.green)
  blue := rangeCheck (fillRequired ch.blue)
  intensity := rangeCheck ch.intensity
  strobe := rangeCheck ch.strobe

/-- A Par light fixture (`ParLight`): validated channel map plus the mirrored
current state (`current_rgb`, `current_intensity`). -/
structure ParLight where
  name : String
  dmx_address : ℤ
  channels : Channels
  current_rgb : ℤ × ℤ × ℤ
  current_intensity : ℤ
deriving DecidableEq

/-- Model of `ParLight.__init__`: store config, zero state, validate channels. -/
def mkParLight (name : String) (addr : ℤ) (raw : Channels) : ParLight where
  name := name
  dmx_address := addr
  channels := validateChannels raw
  current_rgb := (0, 0, 0)
  current_intensity := 0

/-- The DMX controller state: the 512-channel universe (`self.dmx_data`) and
the fixture dict (`self.lights`), kept in insertion order. -/
structure DMXState where
  dmx_data : List ℤ
  lights : List ParLight
deriving DecidableEq

/-- Dict insertion `self.lights[light.name] = light`: replace an existing
entry with the same name, else append. -/
def insertLight (ls : List ParLight) (l : ParLight) : List ParLight :=
  if ls.any (fun x => x.name = l.name) then
    ls.map (fun x => if x.name = l.name then l else x)
  else ls ++ [l]

/-- Model of `DMXController.__init__` + `_initialize_lights`: a fresh all-zero
universe and the fixtures built from the configuration list. -/
def mkController (configs : List (String × ℤ × Channels)) : DMXState where
  dmx_data := List.replicate 512 0
  lights := configs.foldl (fun ls cfg => insertLight ls (mkParLight cfg.1 cfg.2.1 cfg.2.2)) []

/-- Dict lookup `self.lights[light_name]` (guarded by a membership test in
the source, so it never raises). -/
def findLight (st : DMXState) (name : String) : Option ParLight :=
  st.lights.find? (fun l => l.name = name)

/-- The clamp `max(0, min(255, v))` applied to every channel value. -/
def clamp255 (v : ℤ) : ℤ := max 0 (min 255 v)

/-- Python list assignment `data[i] = v` with Python index semantics:
negative indices count from the end; an out-of-range index raises
`IndexError` (second component `true`). -/
def pyListSet (data : List ℤ) (i : ℤ) (v : ℤ) : List ℤ × Bool :=
  if 0 ≤ i then
    if i < data.length then (data.set i.toNat v, false) else (data, true)
  else
    if -i ≤ data.length then (data.set (data.length + i).toNat v, false) else (data, true)

/-- The guarded channel write `if light.channels[k]: self.dmx_data[ch-1] = v`.
A missing key raises `KeyError`; `None` and `0` are falsy and skip the
write; otherwise the universe cell at offset `ch - 1` is set. -/
def chanWrite (data : List ℤ) (e : ChanEntry) (v : ℤ) : List ℤ × Bool :=
  match e with
  | ChanEntry.missing => (data, true)
  | ChanEntry.null => (data, false)
  | ChanEntry.num c => if c = 0 then (data, false) else pyListSet data (c - 1) v

/-- Sequence two fallible universe updates: once an exception is raised the
rest of the method body does not run. -/
def seqW (s : List ℤ × Bool) (f : List ℤ → List ℤ × Bool) : List ℤ × Bool :=
  if s.2 then s else f s.1

/-- Replace the fixture with the given name in the dict. -/
def updateLight (ls : List ParLight) (name : String) (f : ParLight → ParLight) :
    List ParLight :=
  ls.map (fun l => if l.name = name then f l else l)

/-- Model of `DMXController.set_light_rgb` (dmx_controller.py:150-179). Unknown
fixture: warn and return. Inputs are clamped to `[0,255]`, then written to
the red/green/blue channels when present; the optional intensity is clamped
and written only when its channel is truthy (accessing a missing intensity
key raises `KeyError`, which aborts before the state mirror is updated, so
`current_intensity` receives the unclamped argument when the intensity
channel is `None` or `0`). -/
def setLightRgb (st : DMXState) (name : String) (r g b : ℤ) (i : Option ℤ) :
    DMXState × Bool :=
  match findLight st name with
  | none => (st, false)
  | some light =>
    let r2 := clamp255 r
    let g2 := clamp255 g
    let b2 := clamp255 b
    let s1 := chanWrite st.dmx_data light.channels.red r2
    let s2 := seqW s1 (fun d => chanWrite d light.channels.green g2)
    let s3 := seqW s2 (fun d => chanWrite d light.channels.blue b2)
    let s4 := match i with
      | none => s3
      | some iv => seqW s3 (fun d => chanWrite d light.channels.intensity (clamp255 iv))
    if s4.2 then ({ st with dmx_data := s4.1 }, true)
    else
      ({ dmx_data := s4.1,
         lights := updateLight st.lights name (fun l =>
           { l with
             current_rgb := (r2, g2, b2),
             current_intensity :=
               match i with
               | none => l.current_intensity
               | some iv =>
                 match light.channels.intensity with
                 | ChanEntry.num c => if c = 0 then iv else clamp255 iv
                 | _ => iv }) }, false)

/-- Model of `DMXController.set_light_intensity` (dmx_controller.py:181-192). -/
def setLightIntensity (st : DMXState) (name : String) (iv : ℤ) : DMXState × Bool :=
  match findLight st name with
  | none => (st, false)
  | some light =>
    let v := clamp255 iv
    match light.channels.intensity with
    | ChanEntry.missing => (st, true)
    | ChanEntry.null => (st, false)
    | ChanEntry.num c =>
      if c = 0 then (st, false)
      else
        let s := pyListSet st.dmx_data (c - 1) v
        if s.2 then ({ st with dmx_data := s.1 }, true)
        else
          ({ dmx_data := s.1,
             lights := updateLight st.lights name
               (fun l => { l with current_intensity := v }) }, false)

/-- Model of `DMXController.set_light_strobe` (dmx_controller.py:194-204). -/
def setLightStrobe (st : DMXState) (name : String) (sv : ℤ) : DMXState × Bool :=
  match findLight st name with
  | none => (st, false)
  | some light =>
    let v := clamp255 sv
    match light.channels.strobe with
    | ChanEntry.missing => (st, true)
    | ChanEntry.null => (st, false)
    | ChanEntry.num c =>
      if c = 0 then (st, false)
      else
        let s := pyListSet st.dmx_data (c - 1) v
        ({ st with dmx_data := s.1 }, s.2)

/-- The loop body of `DMXController.set_all_lights_rgb`: iterate the fixture
names; an exception raised inside one call stops the loop. -/
def setAllNames (st : DMXState) (names : List String) (r g b : ℤ) (i : Option ℤ) :
    DMXState × Bool :=
  match names with
  | [] => (st, false)
  | n :: rest =>
    let s := setLightRgb st n r g b i
    if s.2 then s else setAllNames s.1 rest r g b i

/-- Model of `DMXController.set_all_lights_rgb` (dmx_controller.py:206-209). -/
def setAllLightsRgb (st : DMXState) (r g b : ℤ) (i : Option ℤ) : DMXState × Bool :=
  setAllNames st (st.lights.map (fun l => l.name)) r g b i

/-- Model of `DMXController.blackout` (dmx_controller.py:216-218):
`set_all_lights_rgb(0, 0, 0, 0)`. -/
def blackout (st : DMXState) : DMXState × Bool :=
  setAllLightsRgb st 0 0 0 (some 0)

/-- The state reported by `DMXController.get_light_state`. -/
structure LightReport where
  rgb : ℤ × ℤ × ℤ
  intensity : ℤ
deriving DecidableEq

/-- Model of `DMXController.get_light_state` (dmx_controller.py:220-232). -/
def getLightState (st : DMXState) (name : String) : Option LightReport :=
  (findLight st name).map (fun l => ⟨l.current_rgb, l.current_intensity⟩)

/-- Model of the `DMXController._send_dmx_frame` frame assembly (dmx_controller.py:142):
`bytes([0x00] + self.dmx_data)` — the start code followed by the universe. -/
def mkFrame (st : DMXState) : List ℤ := 0 :: st.dmx_data

/-- One fixture write operation on the controller. -/
inductive FixtureOp where
  | rgb (name : String) (r g b : ℤ) (i : Option ℤ)
  | intens (name : String) (v : ℤ)
  | strob (name : String) (v : ℤ)

/-- Apply one fixture write; a raised exception propagates to the caller but
the universe keeps the writes performed before the raise. -/
def applyOp (st : DMXState) (op : FixtureOp) : DMXState :=
  match op with
  | FixtureOp.rgb n r g b i => (setLightRgb st n r g b i).1
  | FixtureOp.intens n v => (setLightIntensity st n v).1
  | FixtureOp.strob n v => (setLightStrobe st n v).1

/-- Apply a sequence of fixture writes. -/
def runOps (st : DMXState) (ops : List FixtureOp) : DMXState :=
  ops.foldl applyOp st

/-! ### Ring-buffer push (src/audio_processor.py, `_audio_callback`) -/

/-- The buffering step of `AudioProcessor._audio_callback`
(audio_processor.py:312-314): the chunk is appended only while
`len(self.audio_buffer) < self.audio_buffer.maxlen * 0.9`; otherwise it is
dropped without any exception. Over IEEE doubles the comparison agrees with
the exact rational test `10 * len < 9 * maxlen`: when `0.9 * maxlen` is an
integer the float product `maxlen * 0.9` rounds back to it exactly (the
relative error of the rounded factor is below half an ulp), and otherwise
the error term cannot bridge the gap to the next integer. A `deque` with
`maxlen` keeps the most recent elements on overflow. The sample values are
never inspected, so the element type is a parameter. -/
def pushChunk {α : Type} (buffer chunk : List α) (maxlen : ℕ) : List α :=
  if 10 * buffer.length < 9 * maxlen then
    let l := buffer ++ chunk
    l.drop (l.length - maxlen)
  else buffer

/-! ### Volume analysis (src/audio_processor.py, `_analyze_volume`) -/

/-- The quantity `np.sqrt(np.mean(audio_data ** 2))` — root mean square of the window. -/
noncomputable def rmsValue (w : List ℝ) : ℝ :=
  Real.sqrt ((w.map (fun x => x ^ 2)).sum / w.length)

/-- The exponential-moving-average update used for the smoothed volume
(audio_processor.py:440-441). Stated over any commutative ring and used
at `ℝ`. -/
def smoothUpdate {R : Type} [CommRing R] (a s v : R) : R :=
  a * s + (1 - a) * v

/-- Model of `AudioProcessor._analyze_volume` (audio_processor.py:431-443): returns
the pair (new `current_volume`, new `smoothed_volume`). -/
noncomputable def analyzeVolume (gain nf smoothing smoothedPrev : ℝ) (w : List ℝ) :
    ℝ × ℝ :=
  let volume := max (rmsValue w * gain) nf
  (volume, smoothUpdate smoothing smoothedPrev volume)

/-- The smoothed volume after `n` analysis ticks with a constant
instantaneous volume `v`. -/
noncomputable def smoothSeq (a s0 v : ℝ) : ℕ → ℝ
  | 0 => s0
  | n + 1 => smoothUpdate a (smoothSeq a s0 v n) v

/-! ### Tempo estimation (src/audio_processor.py, `_estimate_tempo`) -/

/-- Insert into an ascending-sorted list (helper for the median). -/
def insertAsc (x : ℚ) : List ℚ → List ℚ
  | [] => [x]
  | y :: ys => if x ≤ y then x :: y :: ys else y :: insertAsc x ys

/-- Sort ascending by insertion (any correct sort matches `np.median`,
which only depends on the sorted order). -/
def sortAsc (l : List ℚ) : List ℚ := l.foldr insertAsc []

/-- Model of `np.median`: the middle element of the sorted data for odd length, the
mean of the two middle elements for even length. -/
def npMedian (l : List ℚ) : ℚ :=
  let s := sortAsc l
  if l.length % 2 = 1 then s.getD (l.length / 2) 0
  else (s.getD (l.length / 2 - 1) 0 + s.getD (l.length / 2) 0) / 2

/-- Tempo-estimation state: the onset-timestamp history and the current
tempo in BPM. -/
structure TempoState where
  onset_times : List ℚ
  tempo : ℚ
deriving DecidableEq

/-- The slice `list(self.onset_times)[-8:]` — the last 8 onset timestamps. -/
def recentOnsets (st : TempoState) : List ℚ :=
  st.onset_times.drop (st.onset_times.length - 8)

/-- The intervals `np.diff(recent_onsets)` — successive differences. -/
def beatIntervals (st : TempoState) : List ℚ :=
  List.zipWith (fun a b => a - b) (recentOnsets st).tail (recentOnsets st)

/-- The outlier rejection (audio_processor.py:545-550): keep intervals
strictly inside `(median * 0.5, median * 2.0)`. -/
def usableIntervals (st : TempoState) : List ℚ :=
  (beatIntervals st).filter (fun t =>
    decide (npMedian (beatIntervals st) * (1 / 2) < t) &&
    decide (t < npMedian (beatIntervals st) * 2))

/-- Model of `AudioProcessor._estimate_tempo` (audio_processor.py:530-567). The
tempo is updated (to `np.clip(60 / avg, min_tempo, max_tempo)`) whenever at
least one interval survives the outlier rejection; otherwise the state is
returned unchanged. -/
def estimateTempo (minTempo maxTempo : ℚ) (st : TempoState) : TempoState :=
  if st.onset_times.length < 2 then st
  else if 0 < (beatIntervals st).length then
    if 0 < (usableIntervals st).length then
      let avg := (usableIntervals st).sum / (usableIntervals st).length
      { st with tempo := min (max (60 / avg) minTempo) maxTempo }
    else st
  else st

/-! ### Light effects engine (src/light_effects.py) -/

/-- Python `int(...)` on a float: truncation toward zero. -/
def pyInt (q : ℚ) : ℤ := if q < 0 then ⌈q⌉ else ⌊q⌋

/-- One RGB channel of `LightEffectsEngine._apply_color_transitions`
(light_effects.py:450-460): `current += (target - current) * speed` then
`current = max(0, min(255, int(current)))`. -/
def transitionChan (speed : ℚ) (target cur : ℤ) : ℤ :=
  clamp255 (pyInt ((cur : ℚ) + ((target : ℚ) - (cur : ℚ)) * speed))

/-- The channel value after `n` transition ticks toward a fixed target. -/
def transitionIter (speed : ℚ) (target cur : ℤ) : ℕ → ℤ
  | 0 => cur
  | n + 1 => transitionChan speed target (transitionIter speed target cur n)

/-- The mutable state of `LightEffectsEngine` that mode changes and beat
responses touch: the mode tag, its start time, the per-fixture color maps,
the intensity values and the mode-specific scratch fields. -/
structure EngineState where
  current_mode : String
  mode_start_time : ℚ
  current_colors : List (String × (ℤ × ℤ × ℤ))
  target_colors : List (String × (ℤ × ℤ × ℤ))
  base_intensity : ℚ
  beat_intensity_boost : ℚ
  last_beat_time : ℚ
  color_cycle_position : ℚ
  ping_pong_position : ℚ
  ping_pong_direction : ℤ
  ping_pong_color_index : ℕ
  flash_random_timer : ℚ
  flash_color_timer : ℚ
deriving DecidableEq

/-- The mode names accepted by `set_mode` (light_effects.py:485). -/
def validModes : List String :=
  ["auto", "pulse", "chase", "strobe", "fade", "ping_pong", "flash_storm"]

/-- Model of `LightEffectsEngine.__init__` (light_effects.py:17-65): initial engine
state for the given fixture names. -/
def mkEngineState (names : List String) (now : ℚ) : EngineState where
  current_mode := "auto"
  mode_start_time := now
  current_colors := names.map (fun n => (n, (0, 0, 0)))
  target_colors := names.map (fun n => (n, (0, 0, 0)))
  base_intensity := 1 / 2
  beat_intensity_boost := 0
  last_beat_time := 0
  color_cycle_position := 0
  ping_pong_position := 0
  ping_pong_direction := 1
  ping_pong_color_index := 0
  flash_random_timer := 0
  flash_color_timer := 0

/-- Model of `LightEffectsEngine.set_mode` (light_effects.py:483-491): a valid mode
name sets `current_mode` and `mode_start_time`; an unknown mode warns and
changes nothing. -/
def setMode (st : EngineState) (mode : String) (now : ℚ) : EngineState :=
  if mode ∈ validModes then
    { st with current_mode := mode, mode_start_time := now }
  else st

/-- Model of `LightEffectsEngine._change_effect_mode` (light_effects.py:122-127);
the randomly drawn replacement mode is a parameter. -/
def changeEffectMode (st : EngineState) (newMode : String) (now : ℚ) : EngineState :=
  { st with current_mode := newMode, mode_start_time := now }

/-- Model of `LightEffectsEngine._handle_beat_response` (light_effects.py:139-155).
On a beat the boost is set to `min(beat_strength * beat_response_strength,
0.5)` and the random color-change draw may replace the target colors; off
the beat the boost decays by the factor `max(0, 1 - time_since_beat / 3)`. -/
def handleBeatResponse (brs : ℚ) (st : EngineState) (beatDetected : Bool)
    (beatStrength : ℚ) (now : ℚ) (colorChangeDraw : Bool)
    (newTargets : List (String × (ℤ × ℤ × ℤ))) : EngineState :=
  if beatDetected then
    let st2 := { st with
      last_beat_time := now,
      beat_intensity_boost := min (beatStrength * brs) (1 / 2) }
    if colorChangeDraw then { st2 with target_colors := newTargets } else st2
  else
    { st with beat_intensity_boost :=
        st.beat_intensity_boost * max 0 (1 - (now - st.last_beat_time) / 3) }

/-- Scratch fields of the engine state agree (used to state what a mode
change leaves untouched). -/
def scratchUnchanged (a b : EngineState) : Prop :=
  a.color_cycle_position = b.color_cycle_position ∧
  a.ping_pong_position = b.ping_pong_position ∧
  a.ping_pong_direction = b.ping_pong_direction ∧
  a.ping_pong_color_index = b.ping_pong_color_index ∧
  a.flash_random_timer = b.flash_random_timer ∧
  a.flash_color_timer = b.flash_color_timer

/-- An engine state mid-run: the ping-pong wave has advanced to position 5. -/
def engineExample : EngineState :=
  { mkEngineState ["p"] 0 with ping_pong_position := 5 }

/-- The universe is well formed: exactly 512 cells, all byte values. -/
def dataOK (d : List ℤ) : Prop :=
  d.length = 512 ∧ ∀ v ∈ d, 0 ≤ v ∧ v ≤ 255

/-- A channel entry that is absent (`None`) or a number in `[1,512]` — what
`_validate_channels` guarantees for the required red/green/blue keys. -/
def entryRGBValid (e : ChanEntry) : Prop :=
  e = ChanEntry.null ∨ ∃ c : ℤ, e = ChanEntry.num c ∧ 1 ≤ c ∧ c ≤ 512

/-- Like `entryRGBValid`, but the key may also be missing entirely — what
`_validate_channels` guarantees for the intensity/strobe keys. -/
def entryOptValid (e : ChanEntry) : Prop :=
  e = ChanEntry.missing ∨ entryRGBValid e

/-- The invariant `_validate_channels` establishes on a channel map. -/
def channelsValid (ch : Channels) : Prop :=
  entryRGBValid ch.red ∧ entryRGBValid ch.green ∧ entryRGBValid ch.blue ∧
  entryOptValid ch.intensity ∧ entryOptValid ch.strobe

/-- Channel `c` is one of the channels `blackout` writes through `set_light_rgb`
(red, green, blue or intensity — not strobe). -/
def chanIsRGBI (ch : Channels) (c : ℤ) : Prop :=
  ch.red = ChanEntry.num c ∨ ch.green = ChanEntry.num c ∨
  ch.blue = ChanEntry.num c ∨ ch.intensity = ChanEntry.num c

/-- A demo fixture: rgb on channels 1-3, no intensity channel (`None`),
strobe on channel 4. -/
def dmxDemoChannels : Channels :=
  ⟨ChanEntry.num 1, ChanEntry.num 2, ChanEntry.num 3, ChanEntry.null, ChanEntry.num 4⟩

/-- A one-fixture configuration using `dmxDemoChannels`. -/
def dmxDemoConfig : List (String × ℤ × Channels) := [("p", 1, dmxDemoChannels)]

/-- The fixture built from `dmxDemoConfig`. -/
def dmxDemoLight : ParLight := mkParLight "p" 1 dmxDemoChannels

/-- A raw channel dict with no strobe key at all. -/
def missingStrobeChannels : Channels :=
  ⟨ChanEntry.num 1, ChanEntry.num 2, ChanEntry.num 3, ChanEntry.null, ChanEntry.missing⟩

/-- A one-fixture configuration whose channel dict lacks the strobe key. -/
def missingStrobeConfig : List (String × ℤ × Channels) := [("q", 1, missingStrobeChannels)]

/-! ## Theorems -/

/-- Claim C5: For every audio window of positive length, the volume produced by
the volume-analysis step equals `max(rms * gain, noise_floor)` where `rms` is
the root mean square of the window, hence the volume is at least the noise
floor; the smoothed volume is the exponential moving average of its previous
value and that volume. -/
theorem analyze_volume_noise_floor (gain nf smoothing sPrev : ℝ) (w : List ℝ)
    (hw : 0 < w.length) :
    (analyzeVolume gain nf smoothing sPrev w).1 = max (rmsValue w * gain) nf ∧
    nf ≤ (analyzeVolume gain nf smoothing sPrev w).1 ∧
    (analyzeVolume gain nf smoothing sPrev w).2 =
      smoothUpdate smoothing sPrev ((analyzeVolume gain nf smoothing sPrev w).1) :=
  ⟨rfl, le_max_right _ _, rfl⟩

/-- Witness for C5 at the window `[1]` with gain 2, noise floor 3. -/
theorem analyze_volume_noise_floor_witness :
    0 < ([1] : List ℝ).length ∧ (3 : ℝ) ≤ (analyzeVolume 2 3 (1 / 2) 0 [1]).1 :=
  ⟨by decide, (analyze_volume_noise_floor 2 3 (1 / 2) 0 [1] (by decide)).2.1⟩

/-- With smoothing factor 1 the update keeps the previous value forever. -/
theorem smoothSeq_const_of_alpha_one (n : ℕ) : smoothSeq 1 0 1 n = 0 := by
  induction n with
  | zero => rfl
  | succ n ih => simp [smoothSeq, smoothUpdate, ih]

/-- Claim C6 counterexample: The smoothing factor `α = 1` lies in the claimed
range `[0,1]`, but with it the smoothed volume started at 0 under constant
instantaneous volume 1 stays 0 forever and does not converge to 1. -/
theorem smoothing_alpha_one_no_convergence :
    (0 : ℝ) ≤ 1 ∧ (1 : ℝ) ≤ 1 ∧
    ¬ Filter.Tendsto (fun n => smoothSeq 1 0 1 n) Filter.atTop (nhds 1) := by
  refine ⟨by norm_num, le_refl 1, ?_⟩
  intro h
  have h0 : Filter.Tendsto (fun _ : ℕ => (0 : ℝ)) Filter.atTop (nhds 1) := by
    simp only [smoothSeq_const_of_alpha_one] at h
    exact h
  have h1 := tendsto_nhds_unique tendsto_const_nhds h0
  norm_num at h1

/-- Closed form of the smoothing recursion. -/
theorem smoothSeq_closed (a s0 v : ℝ) (n : ℕ) :
    smoothSeq a s0 v n = v + a ^ n * (s0 - v) := by
  induction n with
  | zero => simp [smoothSeq]
  | succ n ih => rw [smoothSeq, smoothUpdate, ih]; ring

/-- Claim C6 amended: For `α ∈ [0,1]` every update of the smoothed volume is
the convex combination `α*previous + (1-α)*volume`, lying between the
previous value and the instantaneous volume; for `α ∈ [0,1)` (the factor 1
must be excluded) and constant instantaneous volume `v`, the smoothed volume
converges monotonically to `v`. -/
theorem smoothed_volume_convex_and_converges (a : ℝ) (h0 : 0 ≤ a) (h1 : a ≤ 1) :
    (∀ s v : ℝ, smoothUpdate a s v = a * s + (1 - a) * v ∧
      min s v ≤ smoothUpdate a s v ∧ smoothUpdate a s v ≤ max s v) ∧
    (a < 1 → ∀ s0 v : ℝ,
      Filter.Tendsto (smoothSeq a s0 v) Filter.atTop (nhds v) ∧
      (s0 ≤ v → Monotone (smoothSeq a s0 v)) ∧
      (v ≤ s0 → Antitone (smoothSeq a s0 v))) := by
  constructor
  · intro s v
    refine ⟨rfl, ?_, ?_⟩
    · have hs := min_le_left s v
      have hv := min_le_right s v
      unfold smoothUpdate
      nlinarith
    · have hs := le_max_left s v
      have hv := le_max_right s v
      unfold smoothUpdate
      nlinarith
  · intro hlt s0 v
    have hpow := tendsto_pow_atTop_nhds_zero_of_lt_one h0 hlt
    have hfun : smoothSeq a s0 v = fun n => v + a ^ n * (s0 - v) :=
      funext (smoothSeq_closed a s0 v)
    refine ⟨?_, ?_, ?_⟩
    · rw [hfun]
      have h2 := (hpow.mul_const (s0 - v)).const_add v
      simpa using h2
    · intro hsv
      apply monotone_nat_of_le_succ
      intro n
      rw [smoothSeq_closed, smoothSeq_closed, pow_succ]
      have key : 0 ≤ ((v - s0) * (1 - a)) * a ^ n :=
        mul_nonneg (mul_nonneg (by linarith) (by linarith)) (pow_nonneg h0 n)
      nlinarith [key]
    · intro hvs
      apply antitone_nat_of_succ_le
      intro n
      rw [smoothSeq_closed, smoothSeq_closed, pow_succ]
      have key : 0 ≤ ((s0 - v) * (1 - a)) * a ^ n :=
        mul_nonneg (mul_nonneg (by linarith) (by linarith)) (pow_nonneg h0 n)
      nlinarith [key]

/-- Witness for the amended C6 at `α = 1/2`. -/
theorem smoothed_volume_convex_and_converges_witness :
    Filter.Tendsto (smoothSeq (1 / 2) 0 1) Filter.atTop (nhds 1) :=
  (((smoothed_volume_convex_and_converges (1 / 2) (by norm_num) (by norm_num)).2
    (by norm_num)) 0 1).1

/-- Claim C9 counterexample: A mode change via `set_mode` does not re-initialize
the mode-specific scratch state: with the ping-pong position advanced to 5
(initial value 0), switching to mode `fade` keeps it at 5. -/
theorem setmode_does_not_reset_scratch :
    (setMode engineExample "fade" 100).current_mode = "fade" ∧
    (setMode engineExample "fade" 100).ping_pong_position = 5 ∧
    (mkEngineState ["p"] 0).ping_pong_position = 0 ∧ (5 : ℚ) ≠ 0 := by
  refine ⟨?_, ?_, rfl, by norm_num⟩ <;> rfl

/-- Claim C9 amended: A mode change (explicit `set_mode` with a valid mode
name, or `_change_effect_mode`) updates only `current_mode` and
`mode_start_time`; the mode-specific scratch state is left as it was (not
re-initialized) and the per-fixture current colors are unchanged; an unknown
mode name is a complete no-op. -/
theorem mode_change_preserves_colors_and_scratch (st : EngineState) (mode : String)
    (now : ℚ) :
    (mode ∈ validModes →
      (setMode st mode now).current_mode = mode ∧
      (setMode st mode now).mode_start_time = now) ∧
    (mode ∉ validModes → setMode st mode now = st) ∧
    scratchUnchanged (setMode st mode now) st ∧
    (setMode st mode now).current_colors = st.current_colors ∧
    (setMode st mode now).target_colors = st.target_colors ∧
    scratchUnchanged (changeEffectMode st mode now) st ∧
    (changeEffectMode st mode now).current_colors = st.current_colors := by
  unfold setMode changeEffectMode scratchUnchanged
  by_cases h : mode ∈ validModes <;> simp [h]

/-- Witness for the amended C9: a concrete valid mode change. -/
theorem mode_change_preserves_colors_and_scratch_witness :
    (setMode (mkEngineState ["p"] 0) "pulse" 7).current_mode = "pulse" ∧
    scratchUnchanged (setMode (mkEngineState ["p"] 0) "pulse" 7) (mkEngineState ["p"] 0) :=
  ⟨((mode_change_preserves_colors_and_scratch (mkEngineState ["p"] 0) "pulse" 7).1
      (by decide)).1,
   (mode_change_preserves_colors_and_scratch (mkEngineState ["p"] 0) "pulse" 7).2.2.1⟩

/-- Claim C10: Given nonnegative beat strength and beat-response strength,
monotone wall-clock time and a boost currently in `[0, 0.5]`, the beat
intensity boost stays in `[0, 0.5]` after every beat-response update: on a
beat it is set to `min(beat_strength * beat_response_strength, 0.5)`, and
otherwise it is multiplied by the decay factor
`max(0, 1 - time_since_beat / 3)`, which lies in `[0, 1]`. -/
theorem beat_boost_invariant (brs bs now : ℚ) (st : EngineState) (bd cd : Bool)
    (nt : List (String × (ℤ × ℤ × ℤ)))
    (hbs : 0 ≤ bs) (hbrs : 0 ≤ brs) (ht : st.last_beat_time ≤ now)
    (hlo : 0 ≤ st.beat_intensity_boost) (hhi : st.beat_intensity_boost ≤ 1 / 2) :
    (0 ≤ (handleBeatResponse brs st bd bs now cd nt).beat_intensity_boost ∧
      (handleBeatResponse brs st bd bs now cd nt).beat_intensity_boost ≤ 1 / 2) ∧
    (bd = true →
      (handleBeatResponse brs st bd bs now cd nt).beat_intensity_boost =
        min (bs * brs) (1 / 2)) ∧
    (bd = false →
      (handleBeatResponse brs st bd bs now cd nt).beat_intensity_boost =
        st.beat_intensity_boost * max 0 (1 - (now - st.last_beat_time) / 3) ∧
      0 ≤ max (0 : ℚ) (1 - (now - st.last_beat_time) / 3) ∧
      max (0 : ℚ) (1 - (now - st.last_beat_time) / 3) ≤ 1) := by
  have hd3 : (0 : ℚ) ≤ (now - st.last_beat_time) / 3 :=
    div_nonneg (by linarith) (by norm_num)
  have hfle : max (0 : ℚ) (1 - (now - st.last_beat_time) / 3) ≤ 1 :=
    max_le (by norm_num) (by linarith)
  have hfge : (0 : ℚ) ≤ max 0 (1 - (now - st.last_beat_time) / 3) := le_max_left 0 _
  cases bd with
  | true =>
    cases cd <;>
      exact ⟨⟨le_min (mul_nonneg hbs hbrs) (by norm_num), min_le_right _ _⟩,
        fun _ => rfl, fun hfalse => by simp at hfalse⟩
  | false =>
    refine ⟨⟨mul_nonneg hlo hfge, ?_⟩, fun htrue => by simp at htrue,
      fun _ => ⟨rfl, hfge, hfle⟩⟩
    calc st.beat_intensity_boost * max 0 (1 - (now - st.last_beat_time) / 3)
        ≤ st.beat_intensity_boost * 1 := by
          exact mul_le_mul_of_nonneg_left hfle hlo
      _ = st.beat_intensity_boost := mul_one _
      _ ≤ 1 / 2 := hhi

/-- Claim C2 counterexample: With exactly two recorded onsets (at times 0 and
1) there is a single beat interval, hence fewer than 2 usable intervals in
the claim's sense (the interval 1 lies inside `[0.5*median, 2*median]`, so
exactly one usable interval remains), yet the tempo is not left unchanged:
starting from 120 BPM the step computes 60 BPM. -/
theorem tempo_updates_with_single_interval :
    (estimateTempo 40 200 ⟨[0, 1], 120⟩).tempo = 60 ∧
    ((beatIntervals ⟨[0, 1], 120⟩).filter (fun t =>
      decide (npMedian (beatIntervals ⟨[0, 1], 120⟩) * (1 / 2) ≤ t) &&
      decide (t ≤ npMedian (beatIntervals ⟨[0, 1], 120⟩) * 2))).length = 1 ∧
    (60 : ℚ) ≠ 120 := by
  refine ⟨?_, ?_, by norm_num⟩
  · norm_num [estimateTempo, usableIntervals, beatIntervals, recentOnsets, npMedian,
      sortAsc, insertAsc]
  · norm_num [beatIntervals, recentOnsets, npMedian, sortAsc, insertAsc]

/-- Claim C2 amended: The tempo-estimation step leaves the state unchanged
when fewer than 2 onsets are recorded, and when no interval survives the
outlier rejection (the code keeps intervals strictly inside
`(0.5*median, 2*median)` and requires only ≥ 1 survivor, not ≥ 2, to
update); and whenever the step does change the tempo, the new value lies
within `[min_tempo, max_tempo]` (given `min_tempo ≤ max_tempo`). -/
theorem tempo_no_op_and_range (minT maxT : ℚ) (st : TempoState) (h : minT ≤ maxT) :
    (st.onset_times.length < 2 → estimateTempo minT maxT st = st) ∧
    (usableIntervals st = [] → estimateTempo minT maxT st = st) ∧
    ((estimateTempo minT maxT st).tempo = st.tempo ∨
      (minT ≤ (estimateTempo minT maxT st).tempo ∧
        (estimateTempo minT maxT st).tempo ≤ maxT)) := by
  unfold estimateTempo
  refine ⟨fun hlt => by simp [hlt], fun hempty => ?_, ?_⟩
  · by_cases h2 : st.onset_times.length < 2
    · simp [h2]
    · simp [h2, hempty]
  · by_cases h2 : st.onset_times.length < 2
    · simp [h2]
    · by_cases h3 : 0 < (beatIntervals st).length
      · by_cases h4 : 0 < (usableIntervals st).length
        · right
          simp only [h2, h3, h4, if_true, if_false, if_neg, if_pos]
          constructor
          · exact le_min (le_max_right _ _) h
          · exact min_le_right _ _
        · simp [h2, h3, h4]
      · simp [h2, h3]

/-- Witness for the amended C2: two onsets at 0 and 1, bounds `[40, 200]`. -/
theorem tempo_no_op_and_range_witness :
    (40 : ℚ) ≤ 200 ∧
    ((estimateTempo 40 200 ⟨[0, 1], 120⟩).tempo = (120 : ℚ) ∨
      (40 ≤ (estimateTempo 40 200 ⟨[0, 1], 120⟩).tempo ∧
        (estimateTempo 40 200 ⟨[0, 1], 120⟩).tempo ≤ 200)) :=
  ⟨by norm_num, by
    have h := (tempo_no_op_and_range 40 200 ⟨[0, 1], 120⟩ (by norm_num)).2.2
    exact h⟩

/-- Claim C3 counterexample: At occupancy exactly 90% of capacity (36 samples
of a 40-sample capacity) the occupancy does not *exceed* 90%, yet the
incoming chunk is dropped rather than appended: the buffer stays at 36
samples instead of growing to 37; no counter records the drop (the callback
maintains none). -/
theorem push_drops_at_exactly_ninety_percent :
    10 * (List.replicate 36 (0 : ℤ)).length = 9 * 40 ∧
    pushChunk (List.replicate 36 (0 : ℤ)) [0] 40 = List.replicate 36 0 ∧
    (pushChunk (List.replicate 36 (0 : ℤ)) [0] 40).length = 36 := by
  refine ⟨by decide, ?_, ?_⟩ <;> simp [pushChunk]

/-- Claim C3 amended: A push is dropped entirely — the buffer unchanged and
no exception raised (the model is a total function) — exactly when occupancy
is at least 90% of capacity; below that threshold the chunk's samples are
appended, keeping the most recent `maxlen` samples. The source maintains no
counter of dropped pushes. -/
theorem push_drop_iff_at_ninety_percent {α : Type} (buffer chunk : List α) (maxlen : ℕ) :
    (9 * maxlen ≤ 10 * buffer.length → pushChunk buffer chunk maxlen = buffer) ∧
    (10 * buffer.length < 9 * maxlen →
      pushChunk buffer chunk maxlen =
        (buffer ++ chunk).drop (buffer.length + chunk.length - maxlen) ∧
      (buffer.length + chunk.length ≤ maxlen →
        pushChunk buffer chunk maxlen = buffer ++ chunk) ∧
      (pushChunk buffer chunk maxlen).length = min (buffer.length + chunk.length) maxlen) := by
  constructor
  · intro hge
    have hn : ¬ 10 * buffer.length < 9 * maxlen := by omega
    simp [pushChunk, hn]
  · intro hlt
    refine ⟨by simp [pushChunk, hlt], fun hfits => ?_, ?_⟩
    · have hz : buffer.length + chunk.length - maxlen = 0 := by omega
      simp [pushChunk, hlt, hz]
    · simp only [pushChunk, hlt, if_pos, List.length_drop, List.length_append]
      omega

/-- Witness for the amended C3: a drop at full occupancy and an append with
room to spare. -/
theorem push_drop_iff_at_ninety_percent_witness :
    pushChunk (List.replicate 40 (0 : ℤ)) [7] 40 = List.replicate 40 0 ∧
    pushChunk ([0, 0] : List ℤ) [7] 40 = [0, 0, 7] :=
  ⟨(push_drop_iff_at_ninety_percent (List.replicate 40 (0 : ℤ)) [7] 40).1 (by decide),
   by
    have h := ((push_drop_iff_at_ninety_percent ([0, 0] : List ℤ) [7] 40).2
      (by decide)).2.1 (by decide)
    simpa using h⟩

/-- Witness for C10 on a beat of strength 1 at time 5. -/
theorem beat_boost_invariant_witness :
    0 ≤ (handleBeatResponse 1 (mkEngineState ["p"] 0) true 1 5 false []).beat_intensity_boost ∧
    (handleBeatResponse 1 (mkEngineState ["p"] 0) true 1 5 false []).beat_intensity_boost ≤ 1 / 2 :=
  (beat_boost_invariant 1 1 5 (mkEngineState ["p"] 0) true false []
    (by norm_num) (by norm_num) (by norm_num [mkEngineState]) (by norm_num [mkEngineState])
    (by norm_num [mkEngineState])).1

theorem clamp255_nonneg (v : ℤ) : 0 ≤ clamp255 v := le_max_left 0 _

theorem clamp255_le_255 (v : ℤ) : clamp255 v ≤ 255 :=
  max_le (by norm_num) (min_le_left _ _)

theorem clamp255_eq_self (v : ℤ) (h0 : 0 ≤ v) (h1 : v ≤ 255) : clamp255 v = v := by
  unfold clamp255
  rw [min_eq_right h1, max_eq_right h0]

theorem dataOK_set (d : List ℤ) (n : ℕ) (v : ℤ) (h : dataOK d) (h0 : 0 ≤ v)
    (h1 : v ≤ 255) : dataOK (d.set n v) :=
  ⟨by simp [h.1], fun x hx => (List.mem_or_eq_of_mem_set hx).elim (h.2 x)
    (fun e => e ▸ ⟨h0, h1⟩)⟩

theorem pyListSet_dataOK (d : List ℤ) (i v : ℤ) (h : dataOK d) (h0 : 0 ≤ v)
    (h1 : v ≤ 255) : dataOK (pyListSet d i v).1 := by
  unfold pyListSet
  split <;> split
  · exact dataOK_set _ _ _ h h0 h1
  · exact h
  · exact dataOK_set _ _ _ h h0 h1
  · exact h

theorem chanWrite_dataOK (d : List ℤ) (e : ChanEntry) (v : ℤ) (h : dataOK d)
    (h0 : 0 ≤ v) (h1 : v ≤ 255) : dataOK (chanWrite d e v).1 := by
  unfold chanWrite
  split
  · exact h
  · exact h
  · split
    · exact h
    · exact pyListSet_dataOK _ _ _ h h0 h1

theorem seqW_dataOK (s : List ℤ × Bool) (f : List ℤ → List ℤ × Bool)
    (h : dataOK s.1) (hf : ∀ d, dataOK d → dataOK (f d).1) : dataOK (seqW s f).1 := by
  unfold seqW
  split
  · exact h
  · exact hf s.1 h

theorem setLightRgb_dataOK (st : DMXState) (nm : String) (r g b : ℤ) (i : Option ℤ)
    (h : dataOK st.dmx_data) : dataOK (setLightRgb st nm r g b i).1.dmx_data := by
  unfold setLightRgb
  cases hf : findLight st nm with
  | none => exact h
  | some l =>
    have h1 : dataOK (chanWrite st.dmx_data l.channels.red (clamp255 r)).1 :=
      chanWrite_dataOK _ _ _ h (clamp255_nonneg r) (clamp255_le_255 r)
    have h2 : dataOK (seqW (chanWrite st.dmx_data l.channels.red (clamp255 r))
        (fun d => chanWrite d l.channels.green (clamp255 g))).1 :=
      seqW_dataOK _ _ h1 (fun d hd =>
        chanWrite_dataOK _ _ _ hd (clamp255_nonneg g) (clamp255_le_255 g))
    have h3 : dataOK (seqW (seqW (chanWrite st.dmx_data l.channels.red (clamp255 r))
        (fun d => chanWrite d l.channels.green (clamp255 g)))
        (fun d => chanWrite d l.channels.blue (clamp255 b))).1 :=
      seqW_dataOK _ _ h2 (fun d hd =>
        chanWrite_dataOK _ _ _ hd (clamp255_nonneg b) (clamp255_le_255 b))
    cases i with
    | none =>
      dsimp only
      split
      · exact h3
      · exact h3
    | some iv =>
      have h4 : dataOK (seqW (seqW (seqW (chanWrite st.dmx_data l.channels.red (clamp255 r))
          (fun d => chanWrite d l.channels.green (clamp255 g)))
          (fun d => chanWrite d l.channels.blue (clamp255 b)))
          (fun d => chanWrite d l.channels.intensity (clamp255 iv))).1 :=
        seqW_dataOK _ _ h3 (fun d hd =>
          chanWrite_dataOK _ _ _ hd (clamp255_nonneg iv) (clamp255_le_255 iv))
      dsimp only
      split
      · exact h4
      · exact h4

theorem setLightIntensity_dataOK (st : DMXState) (nm : String) (iv : ℤ)
    (h : dataOK st.dmx_data) : dataOK (setLightIntensity st nm iv).1.dmx_data := by
  unfold setLightIntensity
  cases hf : findLight st nm with
  | none => exact h
  | some l =>
    dsimp only
    split
    · exact h
    · exact h
    · split
      · exact h
      · split
        · exact pyListSet_dataOK _ _ _ h (clamp255_nonneg iv) (clamp255_le_255 iv)
        · exact pyListSet_dataOK _ _ _ h (clamp255_nonneg iv) (clamp255_le_255 iv)

theorem setLightStrobe_dataOK (st : DMXState) (nm : String) (sv : ℤ)
    (h : dataOK st.dmx_data) : dataOK (setLightStrobe st nm sv).1.dmx_data := by
  unfold setLightStrobe
  cases hf : findLight st nm with
  | none => exact h
  | some l =>
    dsimp only
    split
    · exact h
    · exact h
    · split
      · exact h
      · exact pyListSet_dataOK _ _ _ h (clamp255_nonneg sv) (clamp255_le_255 sv)

theorem applyOp_dataOK (st : DMXState) (op : FixtureOp) (h : dataOK st.dmx_data) :
    dataOK (applyOp st op).dmx_data := by
  cases op with
  | rgb n r g b i => exact setLightRgb_dataOK st n r g b i h
  | intens n v => exact setLightIntensity_dataOK st n v h
  | strob n v => exact setLightStrobe_dataOK st n v h

theorem runOps_dataOK (ops : List FixtureOp) :
    ∀ st : DMXState, dataOK st.dmx_data → dataOK (runOps st ops).dmx_data := by
  induction ops with
  | nil => exact fun st h => h
  | cons op rest ih => exact fun st h => ih (applyOp st op) (applyOp_dataOK st op h)

theorem mkController_dataOK (configs : List (String × ℤ × Channels)) :
    dataOK (mkController configs).dmx_data := by
  have hd : (mkController configs).dmx_data = List.replicate 512 0 := rfl
  refine ⟨by rw [hd, List.length_replicate], fun v hv => ?_⟩
  rw [hd] at hv
  have hv0 := List.eq_of_mem_replicate hv
  simp [hv0]

/-- Claim C1: Every DMX frame the transmitter assembles is exactly 513 bytes,
byte 0 being the start code `0x00` followed by the 512 universe channels;
after any sequence of fixture writes every universe value lies in `[0,255]`;
the payload of the frame at position `j+1` is universe offset `j`; and a
write through fixture channel number `c` (1-based) lands at universe payload
offset `c-1`. -/
theorem dmx_frame_wellformed (configs : List (String × ℤ × Channels))
    (ops : List FixtureOp) (nm : String) (light : ParLight) (sv c : ℤ)
    (hfind : findLight (runOps (mkController configs) ops) nm = some light)
    (hstrobe : light.channels.strobe = ChanEntry.num c)
    (hc1 : 1 ≤ c) (hc2 : c ≤ 512) :
    (mkFrame (runOps (mkController configs) ops)).length = 513 ∧
    (mkFrame (runOps (mkController configs) ops)).head? = some 0 ∧
    (∀ v ∈ mkFrame (runOps (mkController configs) ops), 0 ≤ v ∧ v ≤ 255) ∧
    (∀ j : ℕ, (mkFrame (runOps (mkController configs) ops)).getD (j + 1) 0 =
      (runOps (mkController configs) ops).dmx_data.getD j 0) ∧
    (setLightStrobe (runOps (mkController configs) ops) nm sv).1.dmx_data =
      (runOps (mkController configs) ops).dmx_data.set (c - 1).toNat (clamp255 sv) := by
  have hOK := runOps_dataOK ops (mkController configs) (mkController_dataOK configs)
  refine ⟨by simp [mkFrame, hOK.1], rfl, ?_, fun j => rfl, ?_⟩
  · intro v hv
    rw [mkFrame, List.mem_cons] at hv
    rcases hv with hv | hv
    · simp [hv]
    · exact hOK.2 v hv
  · unfold setLightStrobe
    rw [hfind]
    dsimp only
    rw [hstrobe]
    dsimp only
    rw [if_neg (by omega : ¬ c = 0)]
    unfold pyListSet
    rw [if_pos (by omega : (0 : ℤ) ≤ c - 1)]
    have hlt : c - 1 < ((runOps (mkController configs) ops).dmx_data.length : ℤ) := by
      rw [hOK.1]
      omega
    rw [if_pos hlt]

/-- Witness for C1: one fixture with strobe on channel 4, no writes yet. -/
theorem dmx_frame_wellformed_witness :
    findLight (runOps (mkController dmxDemoConfig) []) "p" = some dmxDemoLight ∧
    dmxDemoLight.channels.strobe = ChanEntry.num 4 ∧
    (mkFrame (runOps (mkController dmxDemoConfig) [])).length = 513 :=
  ⟨by decide, by decide,
   (dmx_frame_wellformed dmxDemoConfig [] "p" dmxDemoLight 7 4 (by decide) (by decide)
     (by decide) (by decide)).1⟩

set_option maxRecDepth 20000 in
/-- Claim C4 counterexample: A strobe value of 200 written to channel 4 before
the shutdown survives `blackout()`: the frame assembled after the blackout
carries 200 (not 0) at payload channel 4, so the final frame is not the
all-zero frame the claim requires. -/
theorem blackout_leaves_strobe_nonzero :
    (mkFrame ((blackout ((setLightStrobe (mkController dmxDemoConfig) "p" 200).1)).1)).getD
      4 0 = 200 ∧ (200 : ℤ) ≠ 0 := by
  constructor
  · decide
  · decide

theorem clamp255_zero : clamp255 0 = 0 := by decide

theorem seqW_of_false (s : List ℤ × Bool) (f : List ℤ → List ℤ × Bool)
    (h : s.2 = false) : seqW s f = f s.1 := by
  unfold seqW
  rw [h]
  simp

theorem getD_set_self (d : List ℤ) (k : ℕ) (v : ℤ) (h : k < d.length) :
    (d.set k v).getD k 0 = v := by
  rw [List.getD_eq_getElem?_getD, List.getElem?_set, if_pos rfl, if_pos h]
  rfl

theorem getD_set_or (d : List ℤ) (k i : ℕ) (v : ℤ) :
    (d.set k v).getD i 0 = v ∨ (d.set k v).getD i 0 = d.getD i 0 := by
  rw [List.getD_eq_getElem?_getD, List.getElem?_set]
  by_cases hk : k = i
  · rw [if_pos hk]
    by_cases hl : k < d.length
    · rw [if_pos hl]
      exact Or.inl rfl
    · rw [if_neg hl]
      right
      rw [List.getD_eq_getElem?_getD, List.getElem?_eq_none (by omega : d.length ≤ i)]
  · rw [if_neg hk]
    right
    rw [List.getD_eq_getElem?_getD]

theorem chanWrite_zero_spec (d : List ℤ) (e : ChanEntry)
    (hlen : d.length = 512) (hval : entryRGBValid e) :
    (chanWrite d e 0).2 = false ∧
    (chanWrite d e 0).1.length = 512 ∧
    (∀ i : ℕ, (chanWrite d e 0).1.getD i 0 = 0 ∨
      (chanWrite d e 0).1.getD i 0 = d.getD i 0) ∧
    (∀ c : ℤ, e = ChanEntry.num c → (chanWrite d e 0).1.getD (c - 1).toNat 0 = 0) := by
  rcases hval with he | ⟨c, he, hc1, hc2⟩ <;> subst he
  · exact ⟨rfl, hlen, fun i => Or.inr rfl, fun c hc => by simp at hc⟩
  · have hcw : chanWrite d (ChanEntry.num c) 0 = (d.set (c - 1).toNat 0, false) := by
      unfold chanWrite pyListSet
      dsimp only
      rw [if_neg (by omega : ¬ c = 0), if_pos (by omega : (0 : ℤ) ≤ c - 1),
        if_pos (by rw [hlen]; omega : c - 1 < (d.length : ℤ))]
    rw [hcw]
    refine ⟨rfl, by simp [hlen], fun i => getD_set_or d _ i 0, ?_⟩
    intro c' hc'
    injection hc' with hcc
    subst hcc
    exact getD_set_self d _ 0 (by rw [hlen]; omega)

theorem zero_or_eq_trans {x y z : ℤ} (h1 : x = 0 ∨ x = y) (h2 : y = 0 ∨ y = z) :
    x = 0 ∨ x = z := by
  rcases h1 with h1 | h1
  · exact Or.inl h1
  · rw [h1]
    exact h2

theorem updateLight_shape (ls : List ParLight) (nm : String) (f : ParLight → ParLight)
    (hf : ∀ l, (f l).name = l.name ∧ (f l).channels = l.channels) :
    (updateLight ls nm f).map (fun l => (l.name, l.channels)) =
      ls.map (fun l => (l.name, l.channels)) := by
  unfold updateLight
  rw [List.map_map]
  apply List.map_congr_left
  intro a _
  by_cases ha : a.name = nm
  · simp [Function.comp_apply, ha, (hf a).1, (hf a).2]
  · simp [Function.comp_apply, ha]

theorem setLightRgb_zero_spec (st : DMXState) (nm : String)
    (hlen : st.dmx_data.length = 512)
    (hval : ∀ l ∈ st.lights, channelsValid l.channels)
    (hint : ∀ l ∈ st.lights, l.channels.intensity ≠ ChanEntry.missing) :
    (setLightRgb st nm 0 0 0 (some 0)).2 = false ∧
    (setLightRgb st nm 0 0 0 (some 0)).1.dmx_data.length = 512 ∧
    (∀ i : ℕ, (setLightRgb st nm 0 0 0 (some 0)).1.dmx_data.getD i 0 = 0 ∨
      (setLightRgb st nm 0 0 0 (some 0)).1.dmx_data.getD i 0 = st.dmx_data.getD i 0) ∧
    (∀ l c, findLight st nm = some l → chanIsRGBI l.channels c →
      (setLightRgb st nm 0 0 0 (some 0)).1.dmx_data.getD (c - 1).toNat 0 = 0) ∧
    (setLightRgb st nm 0 0 0 (some 0)).1.lights.map (fun l => (l.name, l.channels)) =
      st.lights.map (fun l => (l.name, l.channels)) := by
  cases hf : findLight st nm with
  | none =>
    have he : setLightRgb st nm 0 0 0 (some 0) = (st, false) := by
      unfold setLightRgb
      rw [hf]
    rw [he]
    exact ⟨rfl, hlen, fun i => Or.inr rfl,
      fun l c hl hch => by simp at hl, rfl⟩
  | some l =>
    have hmem := List.mem_of_find?_eq_some hf
    obtain ⟨hred, hgreen, hblue, hintv, hstr⟩ := hval l hmem
    have hintm := hint l hmem
    have hintv2 : entryRGBValid l.channels.intensity := by
      rcases hintv with hm | hv
      · exact absurd hm hintm
      · exact hv
    have hA := chanWrite_zero_spec st.dmx_data l.channels.red hlen hred
    have hB := chanWrite_zero_spec (chanWrite st.dmx_data l.channels.red 0).1
      l.channels.green hA.2.1 hgreen
    have hC := chanWrite_zero_spec
      (chanWrite (chanWrite st.dmx_data l.channels.red 0).1 l.channels.green 0).1
      l.channels.blue hB.2.1 hblue
    have hD := chanWrite_zero_spec
      (chanWrite (chanWrite (chanWrite st.dmx_data l.channels.red 0).1
        l.channels.green 0).1 l.channels.blue 0).1
      l.channels.intensity hC.2.1 hintv2
    have he : setLightRgb st nm 0 0 0 (some 0) =
        (⟨(chanWrite (chanWrite (chanWrite (chanWrite st.dmx_data l.channels.red 0).1
            l.channels.green 0).1 l.channels.blue 0).1 l.channels.intensity 0).1,
          updateLight st.lights nm (fun l2 =>
            { l2 with
              current_rgb := (0, 0, 0),
              current_intensity :=
                match l.channels.intensity with
                | ChanEntry.num c => if c = 0 then 0 else clamp255 0
                | _ => 0 })⟩, false) := by
      unfold setLightRgb
      rw [hf]
      dsimp only
      simp only [clamp255_zero]
      rw [seqW_of_false _ _ hA.1, seqW_of_false _ _ hB.1, seqW_of_false _ _ hC.1, hD.1]
      simp
    rw [he]
    refine ⟨rfl, hD.2.1, ?_, ?_, ?_⟩
    · intro i
      exact zero_or_eq_trans (hD.2.2.1 i)
        (zero_or_eq_trans (hC.2.2.1 i) (zero_or_eq_trans (hB.2.2.1 i) (hA.2.2.1 i)))
    · intro l' c hl' hch
      injection hl' with hll
      subst hll
      have propagate : ∀ k : ℕ,
          (chanWrite (chanWrite (chanWrite st.dmx_data l.channels.red 0).1
            l.channels.green 0).1 l.channels.blue 0).1.getD k 0 = 0 →
          (chanWrite (chanWrite (chanWrite (chanWrite st.dmx_data l.channels.red 0).1
            l.channels.green 0).1 l.channels.blue 0).1
            l.channels.intensity 0).1.getD k 0 = 0 := by
        intro k hk
        rcases hD.2.2.1 k with hz | hz
        · exact hz
        · rw [hz]
          exact hk
      rcases hch with hc | hc | hc | hc
      · refine propagate _ ?_
        rcases hC.2.2.1 (c - 1).toNat with hz | hz
        · exact hz
        · rw [hz]
          rcases hB.2.2.1 (c - 1).toNat with hz2 | hz2
          · exact hz2
          · rw [hz2]
            exact hA.2.2.2 c hc
      · refine propagate _ ?_
        rcases hC.2.2.1 (c - 1).toNat with hz | hz
        · exact hz
        · rw [hz]
          exact hB.2.2.2 c hc
      · exact propagate _ (hC.2.2.2 c hc)
      · exact hD.2.2.2 c hc
    · exact updateLight_shape st.lights nm _ (fun l2 => ⟨rfl, rfl⟩)

theorem channelsPred_of_mapEq (P : Channels → Prop) (ls1 ls2 : List ParLight)
    (h : ls1.map (fun l => (l.name, l.channels)) = ls2.map (fun l => (l.name, l.channels)))
    (hp : ∀ l ∈ ls2, P l.channels) : ∀ l ∈ ls1, P l.channels := by
  intro l hl
  have hm : (l.name, l.channels) ∈ ls2.map (fun l => (l.name, l.channels)) := by
    rw [← h]
    exact List.mem_map_of_mem _ hl
  obtain ⟨l2, hl2, he⟩ := List.mem_map.mp hm
  have hch : l2.channels = l.channels := congrArg Prod.snd he
  rw [← hch]
  exact hp l2 hl2

theorem find?_channels_of_mapEq (ls1 ls2 : List ParLight)
    (h : ls1.map (fun l => (l.name, l.channels)) = ls2.map (fun l => (l.name, l.channels)))
    (nm : String) :
    Option.map (fun l => l.channels) (ls1.find? (fun l => l.name = nm)) =
      Option.map (fun l => l.channels) (ls2.find? (fun l => l.name = nm)) := by
  induction ls1 generalizing ls2 with
  | nil =>
    have h2 : ls2 = [] := List.map_eq_nil_iff.mp h.symm
    subst h2
    rfl
  | cons a t ih =>
    cases ls2 with
    | nil => simp at h
    | cons b t2 =>
      simp only [List.map_cons, List.cons.injEq] at h
      obtain ⟨hhead, htail⟩ := h
      have hname : a.name = b.name := congrArg Prod.fst hhead
      have hch : a.channels = b.channels := congrArg Prod.snd hhead
      by_cases hnm : a.name = nm
      · rw [List.find?_cons_of_pos _ (by simp [hnm]),
          List.find?_cons_of_pos _ (by simp [← hname, hnm])]
        simp [hch]
      · rw [List.find?_cons_of_neg _ (by simp [hnm]),
          List.find?_cons_of_neg _ (by simp [← hname, hnm])]
        exact ih t2 htail

theorem setAllNames_zero_spec (names : List String) :
    ∀ st : DMXState, st.dmx_data.length = 512 →
      (∀ l ∈ st.lights, channelsValid l.channels) →
      (∀ l ∈ st.lights, l.channels.intensity ≠ ChanEntry.missing) →
      (setAllNames st names 0 0 0 (some 0)).2 = false ∧
      (setAllNames st names 0 0 0 (some 0)).1.dmx_data.length = 512 ∧
      (∀ i : ℕ, (setAllNames st names 0 0 0 (some 0)).1.dmx_data.getD i 0 = 0 ∨
        (setAllNames st names 0 0 0 (some 0)).1.dmx_data.getD i 0 = st.dmx_data.getD i 0) ∧
      (∀ nm ∈ names, ∀ l c, findLight st nm = some l → chanIsRGBI l.channels c →
        (setAllNames st names 0 0 0 (some 0)).1.dmx_data.getD (c - 1).toNat 0 = 0) ∧
      (setAllNames st names 0 0 0 (some 0)).1.lights.map (fun l => (l.name, l.channels)) =
        st.lights.map (fun l => (l.name, l.channels)) := by
  induction names with
  | nil =>
    intro st hlen hval hint
    exact ⟨rfl, hlen, fun i => Or.inr rfl, fun nm hnm => by simp at hnm, rfl⟩
  | cons n rest ih =>
    intro st hlen hval hint
    have hspec := setLightRgb_zero_spec st n hlen hval hint
    have hstep : setAllNames st (n :: rest) 0 0 0 (some 0) =
        setAllNames (setLightRgb st n 0 0 0 (some 0)).1 rest 0 0 0 (some 0) := by
      simp [setAllNames, hspec.1]
    rw [hstep]
    have hval1 := channelsPred_of_mapEq channelsValid _ st.lights hspec.2.2.2.2 hval
    have hint1 := channelsPred_of_mapEq (fun ch => ch.intensity ≠ ChanEntry.missing) _
      st.lights hspec.2.2.2.2 hint
    have hrec := ih (setLightRgb st n 0 0 0 (some 0)).1 hspec.2.1 hval1 hint1
    refine ⟨hrec.1, hrec.2.1, ?_, ?_, ?_⟩
    · intro i
      exact zero_or_eq_trans (hrec.2.2.1 i) (hspec.2.2.1 i)
    · intro nm hnm l c hfl hch
      rcases List.mem_cons.mp hnm with hn | hn
      · subst hn
        have h0 : (setLightRgb st nm 0 0 0 (some 0)).1.dmx_data.getD (c - 1).toNat 0 = 0 :=
          hspec.2.2.2.1 l c hfl hch
        rcases hrec.2.2.1 (c - 1).toNat with hz | hz
        · exact hz
        · rw [hz]
          exact h0
      · have hopt := find?_channels_of_mapEq _ st.lights hspec.2.2.2.2 nm
        have hsome : Option.map (fun l => l.channels)
            (findLight (setLightRgb st n 0 0 0 (some 0)).1 nm) = some l.channels := by
          show Option.map (fun l => l.channels)
            ((setLightRgb st n 0 0 0 (some 0)).1.lights.find? (fun l => l.name = nm)) = _
          rw [hopt]
          have hfl2 : st.lights.find? (fun l => l.name = nm) = some l := hfl
          rw [hfl2]
          rfl
        obtain ⟨l2, hl2, hch2⟩ := Option.map_eq_some'.mp hsome
        have hch3 : chanIsRGBI l2.channels c := by
          rw [hch2]
          exact hch
        exact hrec.2.2.2.1 nm hn l2 c hl2 hch3
    · rw [hrec.2.2.2.2, hspec.2.2.2.2]

/-- Claim C4 amended: On cooperative stop, before the serial sink is closed,
`blackout()` runs: it sets every fixture's red/green/blue/intensity channels
to zero without raising (for validated fixtures whose channel dict has an
intensity key); every other universe cell — in particular any strobe
channel — keeps its previous value, so the frame sent after the blackout is
all-zero only on the fixtures' rgb/intensity channels, not necessarily on
all 512 channels. -/
theorem blackout_zeroes_rgb_intensity (st : DMXState)
    (hlen : st.dmx_data.length = 512)
    (hval : ∀ l ∈ st.lights, channelsValid l.channels)
    (hint : ∀ l ∈ st.lights, l.channels.intensity ≠ ChanEntry.missing) :
    (blackout st).2 = false ∧
    (∀ nm l c, findLight st nm = some l → chanIsRGBI l.channels c →
      (blackout st).1.dmx_data.getD (c - 1).toNat 0 = 0) ∧
    (∀ i : ℕ, (blackout st).1.dmx_data.getD i 0 = 0 ∨
      (blackout st).1.dmx_data.getD i 0 = st.dmx_data.getD i 0) ∧
    (mkFrame (blackout st).1).length = 513 := by
  have h := setAllNames_zero_spec (st.lights.map (fun l => l.name)) st hlen hval hint
  refine ⟨h.1, ?_, h.2.2.1, ?_⟩
  · intro nm l c hfl hch
    have hmem : l ∈ st.lights := List.mem_of_find?_eq_some hfl
    have hname : l.name = nm := by simpa using List.find?_some hfl
    have hnm : nm ∈ st.lights.map (fun l => l.name) := by
      rw [← hname]
      exact List.mem_map_of_mem _ hmem
    exact h.2.2.2.1 nm hnm l c hfl hch
  · show (mkFrame (setAllNames st (st.lights.map (fun l => l.name)) 0 0 0 (some 0)).1).length
      = 513
    simp [mkFrame, h.2.1]

theorem dmxDemoLight_channelsValid : channelsValid dmxDemoLight.channels :=
  ⟨Or.inr ⟨1, by decide, by norm_num, by norm_num⟩,
   Or.inr ⟨2, by decide, by norm_num, by norm_num⟩,
   Or.inr ⟨3, by decide, by norm_num, by norm_num⟩,
   Or.inr (Or.inl (by decide)),
   Or.inr (Or.inr ⟨4, by decide, by norm_num, by norm_num⟩)⟩

set_option maxRecDepth 20000 in
/-- Witness for the amended C4: the demo controller with a strobe value
written before the stop. -/
theorem blackout_zeroes_rgb_intensity_witness :
    (blackout ((setLightStrobe (mkController dmxDemoConfig) "p" 200).1)).2 = false := by
  apply (blackout_zeroes_rgb_intensity _ ?_ ?_ ?_).1
  · decide
  · intro l hl
    have hx : (setLightStrobe (mkController dmxDemoConfig) "p" 200).1.lights =
        [dmxDemoLight] := by decide
    rw [hx] at hl
    have hl2 : l = dmxDemoLight := by simpa using hl
    rw [hl2]
    exact dmxDemoLight_channelsValid
  · intro l hl
    have hx : (setLightStrobe (mkController dmxDemoConfig) "p" 200).1.lights =
        [dmxDemoLight] := by decide
    rw [hx] at hl
    have hl2 : l = dmxDemoLight := by simpa using hl
    rw [hl2]
    decide

/-- Claim C7 counterexample: A fixture whose raw channel dict lacks the strobe
key keeps that key missing after construction (it is not set to the absent
`None` marker), and a subsequent `set_light_strobe` raises `KeyError`
instead of being a no-op. -/
theorem strobe_write_raises_on_missing_key :
    (mkParLight "q" 1 missingStrobeChannels).channels.strobe = ChanEntry.missing ∧
    (setLightStrobe (mkController missingStrobeConfig) "q" 10).2 = true ∧
    (setLightStrobe (mkController missingStrobeConfig) "q" 10).1 =
      mkController missingStrobeConfig :=
  ⟨by decide, by decide, rfl⟩

theorem rangeCheck_fill_valid (e : ChanEntry) :
    entryRGBValid (rangeCheck (fillRequired e)) := by
  cases e with
  | missing => exact Or.inl rfl
  | null => exact Or.inl rfl
  | num c =>
    unfold fillRequired rangeCheck
    dsimp only
    by_cases hc : 1 ≤ c ∧ c ≤ 512
    · rw [if_pos hc]
      exact Or.inr ⟨c, rfl, hc.1, hc.2⟩
    · rw [if_neg hc]
      exact Or.inl rfl

theorem rangeCheck_opt_valid (e : ChanEntry) : entryOptValid (rangeCheck e) := by
  cases e with
  | missing => exact Or.inl rfl
  | null => exact Or.inr (Or.inl rfl)
  | num c =>
    unfold rangeCheck
    dsimp only
    by_cases hc : 1 ≤ c ∧ c ≤ 512
    · rw [if_pos hc]
      exact Or.inr (Or.inr ⟨c, rfl, hc.1, hc.2⟩)
    · rw [if_neg hc]
      exact Or.inr (Or.inl rfl)

theorem find?_updateLight (ls : List ParLight) (nm : String) (f : ParLight → ParLight)
    (hf : ∀ l, (f l).name = l.name) :
    (updateLight ls nm f).find? (fun l => l.name = nm) =
      Option.map f (ls.find? (fun l => l.name = nm)) := by
  induction ls with
  | nil => rfl
  | cons a t ih =>
    unfold updateLight
    simp only [List.map_cons]
    by_cases ha : a.name = nm
    · rw [if_pos ha]
      rw [List.find?_cons_of_pos _ (by simp [hf a, ha]),
        List.find?_cons_of_pos _ (by simp [ha])]
      rfl
    · rw [if_neg ha]
      rw [List.find?_cons_of_neg _ (by simp [ha]),
        List.find?_cons_of_neg _ (by simp [ha])]
      unfold updateLight at ih
      exact ih

/-- Claim C7 amended: Construction sets a missing red/green/blue key and any
present out-of-range channel number to absent (`None`) without raising; a
write naming an unknown fixture is a complete no-op; a strobe write to an
absent (`None`) strobe channel is a no-op; rgb inputs are clamped to
`[0,255]` before being stored, and an intensity write through a present
in-range channel stores the clamped value. However, a strobe write through
a channel key that was never present raises `KeyError` (possible only for
intensity/strobe, whose missing keys validation does not fill in). -/
theorem fixture_validation_and_noop_writes (st : DMXState) (nm : String)
    (light : ParLight) (r g b iv sv c : ℤ) (raw : Channels) :
    channelsValid (validateChannels raw) ∧
    (findLight st nm = none →
      setLightRgb st nm r g b (some iv) = (st, false) ∧
      setLightIntensity st nm iv = (st, false) ∧
      setLightStrobe st nm sv = (st, false)) ∧
    (findLight st nm = some light → light.channels.strobe = ChanEntry.null →
      setLightStrobe st nm sv = (st, false)) ∧
    (findLight st nm = some light → light.channels.strobe = ChanEntry.missing →
      setLightStrobe st nm sv = (st, true)) ∧
    (findLight st nm = some light → (setLightRgb st nm r g b none).2 = false →
      getLightState (setLightRgb st nm r g b none).1 nm =
        some ⟨(clamp255 r, clamp255 g, clamp255 b), light.current_intensity⟩) ∧
    (findLight st nm = some light → light.channels.intensity = ChanEntry.num c →
      1 ≤ c → c ≤ 512 → st.dmx_data.length = 512 →
      (setLightIntensity st nm iv).2 = false ∧
      getLightState (setLightIntensity st nm iv).1 nm =
        some ⟨light.current_rgb, clamp255 iv⟩) := by
  refine ⟨⟨rangeCheck_fill_valid raw.red, rangeCheck_fill_valid raw.green,
      rangeCheck_fill_valid raw.blue, rangeCheck_opt_valid raw.intensity,
      rangeCheck_opt_valid raw.strobe⟩, ?_, ?_, ?_, ?_, ?_⟩
  · intro hf
    refine ⟨?_, ?_, ?_⟩
    · unfold setLightRgb
      rw [hf]
    · unfold setLightIntensity
      rw [hf]
    · unfold setLightStrobe
      rw [hf]
  · intro hf hs
    unfold setLightStrobe
    rw [hf]
    dsimp only
    rw [hs]
  · intro hf hs
    unfold setLightStrobe
    rw [hf]
    dsimp only
    rw [hs]
  · intro hf hno
    unfold setLightRgb at hno ⊢
    rw [hf] at hno ⊢
    dsimp only at hno ⊢
    by_cases hs2 : (seqW (seqW (chanWrite st.dmx_data light.channels.red (clamp255 r))
        (fun d => chanWrite d light.channels.green (clamp255 g)))
        (fun d => chanWrite d light.channels.blue (clamp255 b))).2 = true
    · rw [if_pos hs2] at hno
      simp at hno
    · rw [if_neg hs2] at hno ⊢
      unfold getLightState findLight
      dsimp only
      rw [find?_updateLight st.lights nm
        (fun l => { l with current_rgb := (clamp255 r, clamp255 g, clamp255 b),
                           current_intensity := l.current_intensity })
        (fun l => rfl)]
      have hf2 : st.lights.find? (fun l => l.name = nm) = some light := hf
      rw [hf2]
      rfl
  · intro hf hic hc1 hc2 hlen
    have hred : setLightIntensity st nm iv =
        (⟨st.dmx_data.set (c - 1).toNat (clamp255 iv),
          updateLight st.lights nm
            (fun l => { l with current_intensity := clamp255 iv })⟩, false) := by
      unfold setLightIntensity
      rw [hf]
      dsimp only
      rw [hic]
      dsimp only
      rw [if_neg (by omega : ¬ c = 0)]
      unfold pyListSet
      rw [if_pos (by omega : (0 : ℤ) ≤ c - 1),
        if_pos (by rw [hlen]; omega : c - 1 < (st.dmx_data.length : ℤ))]
      simp
    rw [hred]
    refine ⟨rfl, ?_⟩
    unfold getLightState findLight
    dsimp only
    rw [find?_updateLight st.lights nm
      (fun l => { l with current_intensity := clamp255 iv }) (fun l => rfl)]
    have hf2 : st.lights.find? (fun l => l.name = nm) = some light := hf
    rw [hf2]
    rfl

/-- Witness for the amended C7: validation of a raw dict with a missing
strobe key, and an unknown-fixture no-op on the demo controller. -/
theorem fixture_validation_and_noop_writes_witness :
    channelsValid (validateChannels missingStrobeChannels) ∧
    setLightRgb (mkController dmxDemoConfig) "nobody" 1 2 3 (some 4) =
      (mkController dmxDemoConfig, false) :=
  ⟨(fixture_validation_and_noop_writes (mkController dmxDemoConfig) "nobody"
      dmxDemoLight 1 2 3 4 5 1 missingStrobeChannels).1,
   ((fixture_validation_and_noop_writes (mkController dmxDemoConfig) "nobody"
      dmxDemoLight 1 2 3 4 5 1 missingStrobeChannels).2.1 (by decide)).1⟩

theorem pyInt_of_nonneg (q : ℚ) (h : 0 ≤ q) : pyInt q = ⌊q⌋ := by
  unfold pyInt
  rw [if_neg (not_lt.mpr h)]

theorem transitionChan_bounds (s : ℚ) (t c : ℤ) :
    0 ≤ transitionChan s t c ∧ transitionChan s t c ≤ 255 :=
  ⟨clamp255_nonneg _, clamp255_le_255 _⟩

theorem transitionIter_bounds (s : ℚ) (t c : ℤ) (h0 : 0 ≤ c) (h255 : c ≤ 255) :
    ∀ n, 0 ≤ transitionIter s t c n ∧ transitionIter s t c n ≤ 255 := by
  intro n
  cases n with
  | zero => exact ⟨h0, h255⟩
  | succ n => exact transitionChan_bounds s t _

theorem transitionChan_of_le (s : ℚ) (t c : ℤ) (hs0 : 0 < s) (hs1 : s ≤ 1)
    (hc0 : 0 ≤ c) (hct : c ≤ t) (ht : t ≤ 255) :
    transitionChan s t c = ⌊(c : ℚ) + ((t : ℚ) - (c : ℚ)) * s⌋ ∧
    c ≤ transitionChan s t c ∧ transitionChan s t c ≤ t := by
  have hctQ : (c : ℚ) ≤ (t : ℚ) := by exact_mod_cast hct
  have hc0Q : (0 : ℚ) ≤ (c : ℚ) := by exact_mod_cast hc0
  have hprod : (0 : ℚ) ≤ ((t : ℚ) - (c : ℚ)) * s :=
    mul_nonneg (by linarith) hs0.le
  have harg0 : (0 : ℚ) ≤ (c : ℚ) + ((t : ℚ) - (c : ℚ)) * s := by linarith
  have hfl_ge : c ≤ ⌊(c : ℚ) + ((t : ℚ) - (c : ℚ)) * s⌋ :=
    Int.le_floor.mpr (by linarith)
  have harg_le : (c : ℚ) + ((t : ℚ) - (c : ℚ)) * s ≤ (t : ℚ) := by
    nlinarith [mul_le_mul_of_nonneg_left hs1 (by linarith : (0:ℚ) ≤ (t : ℚ) - (c : ℚ))]
  have hfl_le : ⌊(c : ℚ) + ((t : ℚ) - (c : ℚ)) * s⌋ ≤ t := by
    calc ⌊(c : ℚ) + ((t : ℚ) - (c : ℚ)) * s⌋ ≤ ⌊(t : ℚ)⌋ := Int.floor_le_floor harg_le
      _ = t := Int.floor_intCast t
  have heq : transitionChan s t c = ⌊(c : ℚ) + ((t : ℚ) - (c : ℚ)) * s⌋ := by
    unfold transitionChan
    rw [pyInt_of_nonneg _ harg0, clamp255_eq_self _ (le_trans hc0 hfl_ge)
      (le_trans hfl_le ht)]
  rw [heq]
  exact ⟨rfl, hfl_ge, hfl_le⟩

theorem transitionChan_of_ge (s : ℚ) (t c : ℤ) (hs0 : 0 < s) (hs1 : s ≤ 1)
    (ht0 : 0 ≤ t) (htc : t ≤ c) (hc : c ≤ 255) :
    t ≤ transitionChan s t c ∧ transitionChan s t c ≤ c ∧
    (t < c → transitionChan s t c < c) := by
  have htcQ : (t : ℚ) ≤ (c : ℚ) := by exact_mod_cast htc
  have ht0Q : (0 : ℚ) ≤ (t : ℚ) := by exact_mod_cast ht0
  have harg_ge : (t : ℚ) ≤ (c : ℚ) + ((t : ℚ) - (c : ℚ)) * s := by
    nlinarith [mul_le_mul_of_nonneg_left hs1 (by linarith : (0:ℚ) ≤ (c : ℚ) - (t : ℚ))]
  have harg_le : (c : ℚ) + ((t : ℚ) - (c : ℚ)) * s ≤ (c : ℚ) := by
    nlinarith [mul_nonneg (by linarith : (0:ℚ) ≤ (c : ℚ) - (t : ℚ)) hs0.le]
  have harg0 : (0 : ℚ) ≤ (c : ℚ) + ((t : ℚ) - (c : ℚ)) * s := by linarith
  have hfl_ge : t ≤ ⌊(c : ℚ) + ((t : ℚ) - (c : ℚ)) * s⌋ := Int.le_floor.mpr harg_ge
  have hfl_le : ⌊(c : ℚ) + ((t : ℚ) - (c : ℚ)) * s⌋ ≤ c := by
    calc ⌊(c : ℚ) + ((t : ℚ) - (c : ℚ)) * s⌋ ≤ ⌊(c : ℚ)⌋ := Int.floor_le_floor harg_le
      _ = c := Int.floor_intCast c
  have heq : transitionChan s t c = ⌊(c : ℚ) + ((t : ℚ) - (c : ℚ)) * s⌋ := by
    unfold transitionChan
    rw [pyInt_of_nonneg _ harg0, clamp255_eq_self _ (le_trans ht0 hfl_ge)
      (le_trans hfl_le hc)]
  rw [heq]
  refine ⟨hfl_ge, hfl_le, fun hlt => ?_⟩
  have hsub : (t : ℚ) - (c : ℚ) ≤ -1 := by
    have : t + 1 ≤ c := hlt
    have := (by exact_mod_cast this : (t : ℚ) + 1 ≤ (c : ℚ))
    linarith
  have harg_lt : (c : ℚ) + ((t : ℚ) - (c : ℚ)) * s < (c : ℚ) := by
    nlinarith [mul_le_mul_of_nonneg_right hsub hs0.le]
  exact Int.floor_lt.mpr harg_lt

theorem transitionChan_fixed_bound (s : ℚ) (t c : ℤ) (hs0 : 0 < s) (hs1 : s ≤ 1)
    (hc0 : 0 ≤ c) (hc255 : c ≤ 255) (ht0 : 0 ≤ t) (ht255 : t ≤ 255)
    (hfix : transitionChan s t c = c) : ((t - c).natAbs : ℚ) * s < 1 := by
  rcases le_or_lt c t with hct | htc
  · obtain ⟨heq, hge, hle⟩ := transitionChan_of_le s t c hs0 hs1 hc0 hct ht255
    rw [heq] at hfix
    have hlt := Int.lt_floor_add_one ((c : ℚ) + ((t : ℚ) - (c : ℚ)) * s)
    rw [hfix] at hlt
    have habs : ((t - c).natAbs : ℚ) = (t : ℚ) - (c : ℚ) := by
      have h1 : ((t - c).natAbs : ℚ) = ((|t - c| : ℤ) : ℚ) := by
        rw [Int.abs_eq_natAbs, Int.cast_natCast]
      rw [h1, abs_of_nonneg (by omega : (0 : ℤ) ≤ t - c)]
      push_cast
      ring
    rw [habs]
    linarith
  · obtain ⟨hge, hle, hstrict⟩ := transitionChan_of_ge s t c hs0 hs1 ht0 htc.le hc255
    have := hstrict htc
    omega

theorem transitionChan_measure_lt (s : ℚ) (t c : ℤ) (hs0 : 0 < s) (hs1 : s ≤ 1)
    (hc0 : 0 ≤ c) (hc255 : c ≤ 255) (ht0 : 0 ≤ t) (ht255 : t ≤ 255)
    (hne : transitionChan s t c ≠ c) :
    (t - transitionChan s t c).natAbs < (t - c).natAbs := by
  rcases le_or_lt c t with hct | htc
  · obtain ⟨heq, hge, hle⟩ := transitionChan_of_le s t c hs0 hs1 hc0 hct ht255
    omega
  · obtain ⟨hge, hle, hstrict⟩ := transitionChan_of_ge s t c hs0 hs1 ht0 htc.le hc255
    have := hstrict htc
    omega

theorem transitionIter_shift (s : ℚ) (t c : ℤ) (n : ℕ) :
    transitionIter s t c (n + 1) = transitionIter s t (transitionChan s t c) n := by
  induction n with
  | zero => rfl
  | succ n ih =>
    show transitionChan s t (transitionIter s t c (n + 1)) = _
    rw [ih]
    rfl

theorem transitionIter_reaches_fixed (s : ℚ) (t : ℤ) (hs0 : 0 < s) (hs1 : s ≤ 1)
    (ht0 : 0 ≤ t) (ht255 : t ≤ 255) :
    ∀ k (c : ℤ), 0 ≤ c → c ≤ 255 → (t - c).natAbs ≤ k →
      ∃ N, transitionChan s t (transitionIter s t c N) = transitionIter s t c N := by
  intro k
  induction k with
  | zero =>
    intro c hc0 hc255 hk
    have hct : c = t := by omega
    subst hct
    obtain ⟨heq, hge, hle⟩ := transitionChan_of_le s c c hs0 hs1 hc0 le_rfl ht255
    refine ⟨0, ?_⟩
    show transitionChan s c c = c
    omega
  | succ k ih =>
    intro c hc0 hc255 hk
    by_cases hfix : transitionChan s t c = c
    · exact ⟨0, hfix⟩
    · have hdec := transitionChan_measure_lt s t c hs0 hs1 hc0 hc255 ht0 ht255 hfix
      have hsb := transitionChan_bounds s t c
      obtain ⟨N, hN⟩ := ih (transitionChan s t c) hsb.1 hsb.2 (by omega)
      refine ⟨N + 1, ?_⟩
      rw [transitionIter_shift]
      exact hN

theorem transitionIter_stable (s : ℚ) (t c : ℤ) (N : ℕ)
    (hfix : transitionChan s t (transitionIter s t c N) = transitionIter s t c N) :
    ∀ n, N ≤ n → transitionIter s t c n = transitionIter s t c N := by
  have key : ∀ m, transitionIter s t c (N + m) = transitionIter s t c N := by
    intro m
    induction m with
    | zero => rfl
    | succ m ih =>
      show transitionChan s t (transitionIter s t c (N + m)) = _
      rw [ih, hfix]
  intro n hn
  have heq : n = N + (n - N) := by omega
  rw [heq, key]

theorem getLightState_after_setRgb (st : DMXState) (nm : String) (light : ParLight)
    (v1 v2 v3 : ℤ) (hf : findLight st nm = some light)
    (hno : (setLightRgb st nm v1 v2 v3 none).2 = false) :
    getLightState (setLightRgb st nm v1 v2 v3 none).1 nm =
      some ⟨(clamp255 v1, clamp255 v2, clamp255 v3), light.current_intensity⟩ := by
  unfold setLightRgb at hno ⊢
  rw [hf] at hno ⊢
  dsimp only at hno ⊢
  by_cases hs2 : (seqW (seqW (chanWrite st.dmx_data light.channels.red (clamp255 v1))
      (fun d => chanWrite d light.channels.green (clamp255 v2)))
      (fun d => chanWrite d light.channels.blue (clamp255 v3))).2 = true
  · rw [if_pos hs2] at hno
    simp at hno
  · rw [if_neg hs2] at hno ⊢
    unfold getLightState findLight
    dsimp only
    rw [find?_updateLight st.lights nm
      (fun l => { l with current_rgb := (clamp255 v1, clamp255 v2, clamp255 v3),
                         current_intensity := l.current_intensity })
      (fun l => rfl)]
    have hf2 : st.lights.find? (fun l => l.name = nm) = some light := hf
    rw [hf2]
    rfl

theorem transitionIter_stuck_below (n : ℕ) :
    transitionIter (1 / 10) 255 0 n ≤ 246 ∧ 0 ≤ transitionIter (1 / 10) 255 0 n := by
  induction n with
  | zero =>
    constructor
    · show (0 : ℤ) ≤ 246
      norm_num
    · exact le_rfl
  | succ n ih =>
    obtain ⟨hle, hge⟩ := ih
    have step_le : ∀ c : ℤ, 0 ≤ c → c ≤ 246 →
        transitionChan (1 / 10) 255 c ≤ 246 ∧ 0 ≤ transitionChan (1 / 10) 255 c := by
      intro c h0 h246
      refine ⟨?_, clamp255_nonneg _⟩
      obtain ⟨heq, hge2, hle2⟩ := transitionChan_of_le (1 / 10) 255 c (by norm_num)
        (by norm_num) h0 (by omega) (by norm_num)
      rw [heq]
      have hcQ : (c : ℚ) ≤ 246 := by exact_mod_cast h246
      have hlt : (c : ℚ) + (((255 : ℤ) : ℚ) - (c : ℚ)) * (1 / 10) < ((247 : ℤ) : ℚ) := by
        push_cast
        nlinarith
      have hfl := Int.floor_lt.mpr hlt
      omega
    exact step_le _ hge hle

/-- Claim C8 counterexample: With transition speed 0.1 — inside the claimed
range `(0,1]` — and target 255 approached from 0, the truncating smoothing
update sticks at 246: no number of transition ticks ever brings the channel
within ±1 of the target. -/
theorem transition_never_within_one :
    (0 : ℚ) < 1 / 10 ∧ (1 : ℚ) / 10 ≤ 1 ∧ (0 : ℤ) ≤ 255 ∧
    ¬ ∃ N : ℕ, ∀ n, N ≤ n →
      ((255 : ℤ) - transitionIter (1 / 10) 255 0 n).natAbs ≤ 1 := by
  refine ⟨by norm_num, by norm_num, by norm_num, ?_⟩
  rintro ⟨N, hN⟩
  have h1 := hN N le_rfl
  have h2 := transitionIter_stuck_below N
  omega

/-- Claim C8 amended: For every target `(r,g,b)` with components in `[0,255]`,
every start color in `[0,255]` and every transition speed `s ∈ (0,1]`,
iterating the per-channel transition step of `_apply_color_transitions`
converges in finitely many ticks to a fixed point whose distance to the
target satisfies `|target - final| * s < 1` on each channel (so `±1` is
guaranteed only when `s ≥ 1/2`; the gap can reach `⌈1/s⌉ - 1`); once
converged, writing the colors through `set_light_rgb` and reading back via
`get_light_state` returns exactly the converged values. -/
theorem transition_converges_within_inv_speed (s : ℚ) (r0 g0 b0 r g b : ℤ)
    (hs0 : 0 < s) (hs1 : s ≤ 1)
    (hr0 : 0 ≤ r) (hr255 : r ≤ 255) (hg0 : 0 ≤ g) (hg255 : g ≤ 255)
    (hb0 : 0 ≤ b) (hb255 : b ≤ 255)
    (hr00 : 0 ≤ r0) (hr0255 : r0 ≤ 255) (hg00 : 0 ≤ g0) (hg0255 : g0 ≤ 255)
    (hb00 : 0 ≤ b0) (hb0255 : b0 ≤ 255) :
    ∃ N, ∀ n, N ≤ n →
      (transitionIter s r r0 n = transitionIter s r r0 N ∧
        transitionIter s g g0 n = transitionIter s g g0 N ∧
        transitionIter s b b0 n = transitionIter s b b0 N) ∧
      ((r - transitionIter s r r0 n).natAbs : ℚ) * s < 1 ∧
      ((g - transitionIter s g g0 n).natAbs : ℚ) * s < 1 ∧
      ((b - transitionIter s b b0 n).natAbs : ℚ) * s < 1 ∧
      (∀ st nm light, findLight st nm = some light →
        (setLightRgb st nm (transitionIter s r r0 n) (transitionIter s g g0 n)
          (transitionIter s b b0 n) none).2 = false →
        getLightState (setLightRgb st nm (transitionIter s r r0 n)
          (transitionIter s g g0 n) (transitionIter s b b0 n) none).1 nm =
          some ⟨(transitionIter s r r0 n, transitionIter s g g0 n,
            transitionIter s b b0 n), light.current_intensity⟩) := by
  obtain ⟨N1, hN1⟩ := transitionIter_reaches_fixed s r hs0 hs1 hr0 hr255
    (r - r0).natAbs r0 hr00 hr0255 le_rfl
  obtain ⟨N2, hN2⟩ := transitionIter_reaches_fixed s g hs0 hs1 hg0 hg255
    (g - g0).natAbs g0 hg00 hg0255 le_rfl
  obtain ⟨N3, hN3⟩ := transitionIter_reaches_fixed s b hs0 hs1 hb0 hb255
    (b - b0).natAbs b0 hb00 hb0255 le_rfl
  refine ⟨max N1 (max N2 N3), fun n hn => ?_⟩
  have hn1 : N1 ≤ n := le_trans (le_max_left _ _) hn
  have hn2 : N2 ≤ n := le_trans (le_trans (le_max_left _ _) (le_max_right _ _)) hn
  have hn3 : N3 ≤ n := le_trans (le_trans (le_max_right _ _) (le_max_right _ _)) hn
  have hstr := transitionIter_stable s r r0 N1 hN1
  have hstg := transitionIter_stable s g g0 N2 hN2
  have hstb := transitionIter_stable s b b0 N3 hN3
  have hNr : transitionIter s r r0 n = transitionIter s r r0 N1 := hstr n hn1
  have hNg : transitionIter s g g0 n = transitionIter s g g0 N2 := hstg n hn2
  have hNb : transitionIter s b b0 n = transitionIter s b b0 N3 := hstb n hn3
  have hNr2 : transitionIter s r r0 (max N1 (max N2 N3)) = transitionIter s r r0 N1 :=
    hstr _ (le_max_left _ _)
  have hNg2 : transitionIter s g g0 (max N1 (max N2 N3)) = transitionIter s g g0 N2 :=
    hstg _ (le_trans (le_max_left _ _) (le_max_right _ _))
  have hNb2 : transitionIter s b b0 (max N1 (max N2 N3)) = transitionIter s b b0 N3 :=
    hstb _ (le_trans (le_max_right _ _) (le_max_right _ _))
  have hbr := transitionIter_bounds s r r0 hr00 hr0255 N1
  have hbg := transitionIter_bounds s g g0 hg00 hg0255 N2
  have hbb := transitionIter_bounds s b b0 hb00 hb0255 N3
  refine ⟨⟨by rw [hNr, hNr2], by rw [hNg, hNg2], by rw [hNb, hNb2]⟩, ?_, ?_, ?_, ?_⟩
  · rw [hNr]
    exact transitionChan_fixed_bound s r _ hs0 hs1 hbr.1 hbr.2 hr0 hr255 hN1
  · rw [hNg]
    exact transitionChan_fixed_bound s g _ hs0 hs1 hbg.1 hbg.2 hg0 hg255 hN2
  · rw [hNb]
    exact transitionChan_fixed_bound s b _ hs0 hs1 hbb.1 hbb.2 hb0 hb255 hN3
  · intro st nm light hf hno
    have hread := getLightState_after_setRgb st nm light _ _ _ hf hno
    have hbrn := transitionIter_bounds s r r0 hr00 hr0255 n
    have hbgn := transitionIter_bounds s g g0 hg00 hg0255 n
    have hbbn := transitionIter_bounds s b b0 hb00 hb0255 n
    rw [clamp255_eq_self _ hbrn.1 hbrn.2, clamp255_eq_self _ hbgn.1 hbgn.2,
      clamp255_eq_self _ hbbn.1 hbbn.2] at hread
    exact hread

/-- Witness for the amended C8 with speed 1 and target `(10,20,30)` from
black. -/
theorem transition_converges_within_inv_speed_witness :
    ∃ N, ∀ n, N ≤ n →
      (transitionIter 1 10 0 n = transitionIter 1 10 0 N ∧
        transitionIter 1 20 0 n = transitionIter 1 20 0 N ∧
        transitionIter 1 30 0 n = transitionIter 1 30 0 N) ∧
      ((10 - transitionIter 1 10 0 n).natAbs : ℚ) * 1 < 1 ∧
      ((20 - transitionIter 1 20 0 n).natAbs : ℚ) * 1 < 1 ∧
      ((30 - transitionIter 1 30 0 n).natAbs : ℚ) * 1 < 1 ∧
      (∀ st nm light, findLight st nm = some light →
        (setLightRgb st nm (transitionIter 1 10 0 n) (transitionIter 1 20 0 n)
          (transitionIter 1 30 0 n) none).2 = false →
        getLightState (setLightRgb st nm (transitionIter 1 10 0 n)
          (transitionIter 1 20 0 n) (transitionIter 1 30 0 n) none).1 nm =
          some ⟨(transitionIter 1 10 0 n, transitionIter 1 20 0 n,
            transitionIter 1 30 0 n), light.current_intensity⟩) :=
  transition_converges_within_inv_speed 1 0 0 0 10 20 30 (by norm_num) le_rfl
    (by norm_num) (by norm_num) (by norm_num) (by norm_num) (by norm_num) (by norm_num)
    le_rfl (by norm_num) le_rfl (by norm_num) le_rfl (by norm_num)

end Lightshow
